import Mathlib

/-
Verification of the omen structural-extraction engine.

The source (TypeScript) is shallowly embedded: strings are handled as
character lists, each JavaScript regular expression used by the source is
translated into an explicit matcher over character lists, and the stateful
line scanners become recursive functions with explicit state.  The
TypeScript-compiler-based branch of the extractor (parseTypeScriptFile)
builds on the external compiler library and is therefore kept abstract as a
function parameter; everything else is translated from the source.
-/

set_option maxRecDepth 20000

namespace Omen

/-! ## Character classes (mirroring the JavaScript regex classes used) -/

/-- JavaScript word character class as used by the source regexes
(ASCII letters, digits and underscore). -/
def isWordChar (c : Char) : Bool :=
  c.isAlpha || c.isDigit || c == '_'

/-- JavaScript whitespace class restricted to the characters that can occur
in the scanned source lines (space, tab, CR, LF, vertical tab, form feed). -/
def isJsWs (c : Char) : Bool :=
  c == ' ' || c == '\t' || c == '\n' || c == '\r' ||
    c == Char.ofNat 11 || c == Char.ofNat 12

/-- The double-quote character. -/
def dq : Char := Char.ofNat 34

/-- The single-quote character. -/
def sq : Char := Char.ofNat 39

/-- The backslash character. -/
def bslash : Char := Char.ofNat 92

def isQuote (c : Char) : Bool := c == dq || c == sq

def isUpperAZ (c : Char) : Bool := 'A' ≤ c && c ≤ 'Z'

/-! ## List-of-characters string utilities (JavaScript string semantics) -/

/-- Whether `pat` is a leading run of `l`. -/
def startsList : List Char → List Char → Bool
  | _, [] => true
  | [], _ :: _ => false
  | a :: as, b :: bs => a == b && startsList as bs

/-- Drop the literal `pat` from the front of `l`, or fail. -/
def dropLit : List Char → List Char → Option (List Char)
  | l, [] => some l
  | [], _ :: _ => none
  | a :: as, b :: bs => if a == b then dropLit as bs else none

/-- `String.prototype.includes` for a non-empty pattern. -/
def containsSub (l : List Char) (pat : List Char) : Bool :=
  match l with
  | [] => startsList [] pat
  | _ :: rest => startsList l pat || containsSub rest pat

/-- Index of the first occurrence of `pat` in `l`, if any. -/
def indexOfSub (l : List Char) (pat : List Char) : Option Nat :=
  match l with
  | [] => if startsList [] pat then some 0 else none
  | _ :: rest =>
    if startsList l pat then some 0
    else (indexOfSub rest pat).map (· + 1)

/-- `String.prototype.indexOf(pat, from)` returning -1 when absent
(a negative `from` is clamped to 0, as in JavaScript). -/
def jsIndexOfFrom (l pat : List Char) (start : Int) : Int :=
  let s : Nat := start.toNat
  match indexOfSub (l.drop s) pat with
  | some i => Int.ofNat (s + i)
  | none => -1

/-- `String.prototype.substring` with JavaScript clamping and swapping of
out-of-order indices. -/
def jsSubstring (l : List Char) (a b : Int) : List Char :=
  let n := l.length
  let ca : Nat := min a.toNat n
  let cb : Nat := min b.toNat n
  (l.take (max ca cb)).drop (min ca cb)

/-- Split on a single-character separator, keeping empty chunks
(`String.prototype.split` with a one-character separator). -/
def splitChar (sep : Char) : List Char → List (List Char)
  | [] => [[]]
  | c :: rest =>
    if c == sep then [] :: splitChar sep rest
    else
      match splitChar sep rest with
      | [] => [[c]]
      | h :: t => (c :: h) :: t

/-- Split on a three-fold repetition of `q` (the triple-quote separator),
left to right, non-overlapping — `String.prototype.split` on a
three-character separator. -/
def splitOn3 (q : Char) : List Char → List (List Char)
  | c1 :: c2 :: c3 :: rest =>
    if c1 == q && c2 == q && c3 == q then [] :: splitOn3 q rest
    else
      match splitOn3 q (c2 :: c3 :: rest) with
      | [] => [[c1]]
      | h :: t => (c1 :: h) :: t
  | l => [l]

/-- `String.prototype.trim` (over this character set). -/
def trimChars (l : List Char) : List Char :=
  ((l.dropWhile isJsWs).reverse.dropWhile isJsWs).reverse

/-- The part of `l` before the first occurrence of `pat`
(`split(pat)[0]` in JavaScript). -/
def takeBeforeSub (l pat : List Char) : List Char :=
  match indexOfSub l pat with
  | some i => l.take i
  | none => l

/-- Replace the first occurrence of `pat` by `rep`
(`String.prototype.replace` with a plain-string pattern). -/
def replaceFirstSub (l pat rep : List Char) : List Char :=
  match indexOfSub l pat with
  | some i => l.take i ++ rep ++ l.drop (i + pat.length)
  | none => l

/-- Join chunks with a single space (`Array.prototype.join(' ')`). -/
def joinSpace : List (List Char) → List Char
  | [] => []
  | [x] => x
  | x :: y :: rest => x ++ ' ' :: joinSpace (y :: rest)

/-- Number of leading JavaScript-whitespace characters
(`line.match(/^(\s*)/)[1].length`). -/
def indentOf (l : List Char) : Nat :=
  (l.takeWhile isJsWs).length

/-- Count of opening minus closing parentheses, as an integer. -/
def parenBal (l : List Char) : Int :=
  Int.ofNat (l.filter (· == '(')).length - Int.ofNat (l.filter (· == ')')).length

/-- Lower-case a character list (ASCII, as the sources only compare ASCII
markers). -/
def lowerList (l : List Char) : List Char := l.map Char.toLower

/-- Chars of a string. -/
def chars (s : String) : List Char := s.data

/-- String from chars. -/
def ofChars (l : List Char) : String := ⟨l⟩

/-! ## Data model (src/types/index.ts) -/

/-- Language tag of a FileIndex. -/
inductive Lang
  | typescript
  | javascript
  | python
deriving DecidableEq

/-- FunctionInfo from src/types/index.ts. -/
structure FunctionInfo where
  name : String
  params : List String
  returnType : Option String := none
  line : Nat
  isAsync : Bool
  isExported : Bool
  description : Option String := none
deriving DecidableEq

/-- ClassInfo from src/types/index.ts. -/
structure ClassInfo where
  name : String
  line : Nat
  methods : List FunctionInfo
  isExported : Bool
  description : Option String := none
  properties : List String := []
deriving DecidableEq

/-- InterfaceInfo from src/types/index.ts. -/
structure InterfaceInfo where
  name : String
  line : Nat
  properties : List String
  isExported : Bool
  description : Option String := none
deriving DecidableEq

/-- ImportInfo from src/types/index.ts. -/
structure ImportInfo where
  source : String
  imports : List String
  line : Nat
deriving DecidableEq

/-- FileIndex from src/types/index.ts. -/
structure FileIndex where
  path : String
  relativePath : String
  functions : List FunctionInfo
  classes : List ClassInfo
  interfaces : List InterfaceInfo
  imports : List ImportInfo
  language : Lang
deriving DecidableEq

/-- ApiEndpoint from src/types/index.ts. -/
structure ApiEndpoint where
  method : String
  path : String
  handler : String
  file : String
  line : Nat
  auth : Bool
deriving DecidableEq

/-- DbColumn from src/types/index.ts. -/
structure DbColumn where
  name : String
  type : String
  nullable : Bool
  primary : Bool
  foreign : Option String
deriving DecidableEq

/-- DbTable from src/types/index.ts. -/
structure DbTable where
  name : String
  file : String
  line : Nat
  columns : List DbColumn
deriving DecidableEq

/-! ## Path helpers (Node `path` module, restricted to the slash-separated
absolute paths the scanner produces) -/

/-- Node `path.basename`: the part after the last slash. -/
def pathBasename (p : String) : String :=
  ofChars ((splitChar '/' (chars p)).getLastD [])

/-- Node `path.extname`: from the last dot of the basename, when that dot is
not its first character. -/
def extname (p : String) : String :=
  let base := (splitChar '/' (chars p)).getLastD []
  match (splitChar '.' base) with
  | [] => ""
  | [_] => ""
  | first :: rest =>
    match rest.getLast? with
    | none => ""
    | some ext =>
      -- a dot-initial basename with no further dot has no extension
      if first.isEmpty && rest.length == 1 then "" else ofChars ('.' :: ext)

/-- Node `path.relative(root, p)` for the only shape arising here: `p`
living under `root` with slash separators. -/
def pathRelative (root p : String) : String :=
  match dropLit (chars p) (chars root ++ ['/']) with
  | some rest => ofChars rest
  | none => p

/-! ## Heuristic Python extractor (parsePythonFile in src/indexer/parser.ts)

Each JavaScript regular expression of the source becomes an explicit
matcher.  All the regexes involved are deterministic once the
disjointness of the character classes involved is taken into account, so
the matchers below need no backtracking. -/

/-- Triple quote. -/
def tq3 (c : Char) : List Char := [c, c, c]

def headIsWs : List Char → Bool
  | c :: _ => isJsWs c
  | [] => false

/-- Maximal leading word-character run and the remainder. -/
def takeWord (l : List Char) : List Char × List Char :=
  (l.takeWhile isWordChar, l.dropWhile isWordChar)

/-- Regex `^class\s+(\w+)\s*\(([^)]*)\)` — returns (name, bases). -/
def matchClassHeader (l : List Char) : Option (List Char × List Char) := do
  let r ← dropLit l (chars "class")
  guard (headIsWs r)
  let r := r.dropWhile isJsWs
  let (name, r) := takeWord r
  guard (name ≠ [])
  let r := r.dropWhile isJsWs
  match r with
  | '(' :: r =>
    let bases := r.takeWhile (· != ')')
    match r.dropWhile (· != ')') with
    | ')' :: _ => pure (name, bases)
    | _ => none
  | _ => none

/-- Regex `^\s+(\w+)\s*=\s*(?:db\.)?Column\((.+)` — returns
(name, text captured after the opening parenthesis). -/
def matchColumn (l : List Char) : Option (List Char × List Char) := do
  guard (headIsWs l)
  let r := l.dropWhile isJsWs
  let (name, r) := takeWord r
  guard (name ≠ [])
  let r := r.dropWhile isJsWs
  let r ← match r with | '=' :: r => pure r | _ => none
  let r := r.dropWhile isJsWs
  let r := (dropLit r (chars "db.")).getD r
  let r ← dropLit r (chars "Column(")
  guard (r ≠ [])
  pure (name, r)

/-- The lazy group of `(.+?)\s*(?:=|$)`: the shortest non-empty run after
which, skipping whitespace, the line ends or an equals sign follows. -/
def attrLazyAux : List Char → List Char → Option (List Char)
  | acc, r =>
    if (r.dropWhile isJsWs).isEmpty || (r.dropWhile isJsWs).headD ' ' == '=' then
      some acc.reverse
    else
      match r with
      | [] => none
      | c :: rest => attrLazyAux (c :: acc) rest

def attrLazy : List Char → Option (List Char)
  | [] => none
  | c :: rest => attrLazyAux [c] rest

/-- Regex `^\s+(\w+)\s*:\s*(.+?)\s*(?:=|$)` — returns (name, lazy group). -/
def matchAttr (l : List Char) : Option (List Char × List Char) := do
  guard (headIsWs l)
  let r := l.dropWhile isJsWs
  let (name, r) := takeWord r
  guard (name ≠ [])
  let r := r.dropWhile isJsWs
  let r ← match r with | ':' :: r => pure r | _ => none
  let r := r.dropWhile isJsWs
  let g2 ← attrLazy r
  pure (name, g2)

/-- Regex `(?:async\s+)?def\s+(\w+)\s*\(([^)]*)\)` anchored at the list
head — returns (name, parameter text). -/
def matchDef (l : List Char) : Option (List Char × List Char) := do
  let r := match dropLit l (chars "async") with
    | some r' => if headIsWs r' then r'.dropWhile isJsWs else l
    | none => l
  let r ← dropLit r (chars "def")
  guard (headIsWs r)
  let r := r.dropWhile isJsWs
  let (name, r) := takeWord r
  guard (name ≠ [])
  let r := r.dropWhile isJsWs
  let r ← match r with | '(' :: r => pure r | _ => none
  let params := r.takeWhile (· != ')')
  match r.dropWhile (· != ')') with
  | ')' :: _ => pure (name, params)
  | _ => none

/-- Regex `^(\s*)(?:async\s+)?def\s+(\w+)\s*\(([^)]*)\)`. -/
def matchMethodLine (l : List Char) : Option (List Char × List Char) :=
  matchDef (l.dropWhile isJsWs)

/-- The `import\s+(.+)` tail of the import regex. -/
def matchImportTail (r : List Char) : Option (List Char) := do
  let r ← dropLit r (chars "import")
  guard (headIsWs r)
  let r := r.dropWhile isJsWs
  guard (r ≠ [])
  pure r

/-- Regex `^(?:from\s+(\S+)\s+)?import\s+(.+)` — returns
(optional from-module, imported-names text). -/
def matchImport (l : List Char) : Option (Option (List Char) × List Char) :=
  match (do
    let r ← dropLit l (chars "from")
    guard (headIsWs r)
    let r := r.dropWhile isJsWs
    let m := r.takeWhile (fun c => !isJsWs c)
    let r := r.dropWhile (fun c => !isJsWs c)
    guard (m ≠ [])
    guard (headIsWs r)
    let r := r.dropWhile isJsWs
    let rest ← matchImportTail r
    pure (some m, rest) : Option (Option (List Char) × List Char)) with
  | some res => some res
  | none => (matchImportTail l).map (fun rest => ((none : Option (List Char)), rest))

/-- The multi-line column-continuation loop: while the running parenthesis
balance is positive, trim and concatenate the next line (prefixed by a
space) and update the balance; returns the concatenated text and the
number of lines consumed. -/
def consumeCont : Int → List (List Char) → (List Char × Nat)
  | pc, l :: rest =>
    if pc > 0 then
      let t := trimChars l
      let res := consumeCont (pc + parenBal t) rest
      (' ' :: (t ++ res.1), res.2 + 1)
    else ([], 0)
  | _, [] => ([], 0)

/-- Regex `^([^,()]+)` applied to a full column definition, defaulting to
Unknown, then trimmed. -/
def colTypeOf (fullDef : List Char) : List Char :=
  let t := fullDef.takeWhile (fun c => !(c == ',' || c == '(' || c == ')'))
  if t.isEmpty then chars "Unknown" else trimChars t

/-- `params.split(',').map(trim).filter(p => p !== 'self' && p !== 'cls'
&& p !== '')`. -/
def methodParams (params : List Char) : List String :=
  ((splitChar ',' params).map trimChars).filterMap fun p =>
    if p = chars "self" || p = chars "cls" || p = [] then none else some (ofChars p)

/-- `params.split(',').map(trim).filter(p => p !== '')`. -/
def funcParams (params : List Char) : List String :=
  ((splitChar ',' params).map trimChars).filterMap fun p =>
    if p = [] then none else some (ofChars p)

/-- Scanner state of parsePythonFile.  `classesRev`, `importsRev`,
`functionsRev` and the method/property lists inside `classesRev` are kept
most-recent-first; parsePythonFile reverses them at the end.  The open
class context of the source is always the most recently pushed class, so
it is represented by the `inClass` flag plus the head of `classesRev`. -/
structure PyState where
  functionsRev : List FunctionInfo := []
  classesRev : List ClassInfo := []
  importsRev : List ImportInfo := []
  inClass : Bool := false
  currentIndent : Nat := 0
  pendingDoc : Option String := none
  inDocstring : Bool := false
  docLinesRev : List (List Char) := []
deriving DecidableEq

/-- Class-header rule: push a new class consuming the pending docstring. -/
def pushClassSt (st : PyState) (name : String) (lineNum indent : Nat) : PyState :=
  { st with
      classesRev := { name := name, line := lineNum, methods := [], isExported := true,
                      description := st.pendingDoc, properties := [] } :: st.classesRev,
      inClass := true, currentIndent := indent, pendingDoc := none }

/-- Append a property to the current (most recent) class. -/
def pushPropSt (st : PyState) (prop : String) : PyState :=
  match st.classesRev with
  | [] => st
  | c :: rest => { st with classesRev := { c with properties := prop :: c.properties } :: rest }

/-- Append a method to the current (most recent) class, consuming the
pending docstring. -/
def pushMethodSt (st : PyState) (line : List Char) (name : String) (mparams : List Char)
    (lineNum : Nat) : PyState :=
  let m : FunctionInfo :=
    { name := name, params := methodParams mparams, line := lineNum,
      isAsync := containsSub line (chars "async def"), isExported := false,
      description := st.pendingDoc }
  match st.classesRev with
  | [] => { st with pendingDoc := none }
  | c :: rest => { st with classesRev := { c with methods := m :: c.methods } :: rest,
                           pendingDoc := none }

/-- Top-level function rule: record the function, consume the pending
docstring and close any open class context. -/
def pushFuncSt (st : PyState) (line : List Char) (name : String) (fparams : List Char)
    (lineNum : Nat) : PyState :=
  { st with
      functionsRev := { name := name, params := funcParams fparams, line := lineNum,
                        isAsync := containsSub line (chars "async def"), isExported := true,
                        description := st.pendingDoc } :: st.functionsRev,
      pendingDoc := none, inClass := false }

/-- Import rule. -/
def pushImportSt (st : PyState) (srcMod : Option (List Char)) (rest : List Char)
    (lineNum : Nat) : PyState :=
  let parts := splitChar ',' rest
  let source := match srcMod with
    | some m => ofChars m
    | none => ofChars (trimChars (parts.headD []))
  let imports := parts.map fun i => ofChars (trimChars (takeBeforeSub (trimChars i) (chars " as ")))
  { st with importsRev := { source := source, imports := imports, line := lineNum } :: st.importsRev }

/-- One line of the parsePythonFile loop, in the source's rule order:
triple-quote handling, docstring continuation, class header, column,
generic attribute, method, top-level function, context reset, import.
Returns the updated state and the number of extra (column-continuation)
lines consumed. -/
def pyStep (inclImports : Bool) (line : List Char) (rest : List (List Char))
    (lineNum : Nat) (st : PyState) : PyState × Nat :=
  let indent := indentOf line
  if containsSub line (tq3 dq) || containsSub line (tq3 sq) then
    -- triple-quoted string handling
    let q := if containsSub line (tq3 dq) then dq else sq
    let chunks := splitOn3 q line
    if st.inDocstring then
      let endContent := trimChars (chunks.headD [])
      let dls := if endContent.isEmpty then st.docLinesRev else endContent :: st.docLinesRev
      ({ st with pendingDoc := some (ofChars (trimChars (joinSpace dls.reverse))),
                 inDocstring := false, docLinesRev := [] }, 0)
    else if chunks.length - 1 ≥ 2 then
      -- single-line docstring
      ({ st with pendingDoc := some (ofChars (trimChars (chunks.getD 1 []))) }, 0)
    else
      -- start of a multi-line docstring
      let sc := trimChars (chunks.getD 1 [])
      ({ st with inDocstring := true,
                 docLinesRev := if sc.isEmpty then st.docLinesRev else [sc] }, 0)
  else if st.inDocstring then
    ({ st with docLinesRev := trimChars line :: st.docLinesRev }, 0)
  else
    match matchClassHeader line with
    | some (cname, _) => (pushClassSt st (ofChars cname) lineNum indent, 0)
    | none =>
      match (if st.inClass && indent > st.currentIndent then matchColumn line else none) with
      | some (colName, colDef) =>
        let cont := consumeCont (parenBal colDef) rest
        (pushPropSt st (ofChars colName ++ ": " ++ ofChars (colTypeOf (colDef ++ cont.1))),
         cont.2)
      | none =>
        match (if st.inClass && indent > st.currentIndent && !containsSub line (chars "def ")
               then matchAttr line else none) with
        | some (attrName, g2) =>
          let attrType := trimChars (takeBeforeSub g2 ['='])
          (pushPropSt st (ofChars attrName ++ ": " ++ ofChars attrType), 0)
        | none =>
          match (if st.inClass && indent > st.currentIndent then matchMethodLine line else none) with
          | some (mname, mparams) =>
            (pushMethodSt st line (ofChars mname) mparams lineNum, 0)
          | none =>
            match (if indent == 0 then matchDef line else none) with
            | some (fname, fparams) =>
              (pushFuncSt st line (ofChars fname) fparams lineNum, 0)
            | none =>
              let st := if indent == 0 && st.inClass && !(trimChars line).isEmpty then
                  { st with inClass := false } else st
              let st := if inclImports then
                  match matchImport line with
                  | some (srcMod, restImports) => pushImportSt st srcMod restImports lineNum
                  | none => st
                else st
              (st, 0)

/-- The line loop of parsePythonFile.  `fuel` only bounds the recursion
and is set to the number of lines by parsePythonFile; every step consumes
at least one line, so the fuel never runs out. -/
def pyLoop (inclImports : Bool) : Nat → List (List Char) → Nat → PyState → PyState
  | 0, _, _, st => st
  | _ + 1, [], _, st => st
  | fuel + 1, line :: rest, lineNum, st =>
    pyLoop inclImports fuel (rest.drop (pyStep inclImports line rest lineNum st).2)
      (lineNum + 1 + (pyStep inclImports line rest lineNum st).2)
      (pyStep inclImports line rest lineNum st).1

/-- parsePythonFile from src/indexer/parser.ts.  `inclImports` is the
config.includeImports flag. -/
def parsePythonFile (inclImports : Bool) (filePath content workspaceRoot : String) : FileIndex :=
  let lines := splitChar '\n' (chars content)
  let st := pyLoop inclImports lines.length lines 1 {}
  { path := filePath
    relativePath := pathRelative workspaceRoot filePath
    functions := st.functionsRev.reverse
    classes := (st.classesRev.map
      (fun c => { c with methods := c.methods.reverse, properties := c.properties.reverse })).reverse
    interfaces := []
    imports := st.importsRev.reverse
    language := .python }

/-! ## Generic scanning drivers

JavaScript's `String.match` (first match) and `matchAll` (all
non-overlapping matches, left to right) over an at-the-head matcher.  The
fuel argument only bounds the recursion; all the matchers used consume at
least one character per match, so fuel equal to the scanned length makes
the drivers exact. -/

def scanAllF (tryAt : List Char → Option (α × List Char)) : Nat → List Char → List α
  | 0, _ => []
  | _ + 1, [] => []
  | fuel + 1, l@(_ :: rest) =>
    match tryAt l with
    | some (a, r) => a :: scanAllF tryAt fuel r
    | none => scanAllF tryAt fuel rest

/-- As scanAllF, also recording the match start offset. -/
def scanAllPosF (tryAt : List Char → Option (α × List Char)) :
    Nat → Nat → List Char → List (α × Nat)
  | 0, _, _ => []
  | _ + 1, _, [] => []
  | fuel + 1, pos, l@(_ :: rest) =>
    match tryAt l with
    | some (a, r) => (a, pos) :: scanAllPosF tryAt fuel (pos + (l.length - r.length)) r
    | none => scanAllPosF tryAt fuel (pos + 1) rest

/-- First match, left to right. -/
def findFirstF (tryAt : List Char → Option α) : Nat → List Char → Option α
  | 0, _ => none
  | _ + 1, [] => none
  | fuel + 1, l@(_ :: rest) =>
    match tryAt l with
    | some a => some a
    | none => findFirstF tryAt fuel rest

/-- First match, returning the full matched text (`match[0]`); `tryAt`
returns the remainder after a match at the head. -/
def findFirstMatchF (tryAt : List Char → Option (List Char)) : Nat → List Char → Option (List Char)
  | 0, _ => none
  | _ + 1, [] => none
  | fuel + 1, l@(_ :: rest) =>
    match tryAt l with
    | some r => some (l.take (l.length - r.length))
    | none => findFirstMatchF tryAt fuel rest

/-- `content.substring(0, pos).split('\n').length`. -/
def lineOfPos (content : List Char) (pos : Nat) : Nat :=
  ((content.take pos).filter (· == '\n')).length + 1

def endsList (l pat : List Char) : Bool := startsList l.reverse pat.reverse

def upperList (l : List Char) : List Char := l.map Char.toUpper

/-! ## Route extraction (src/indexer/generator.ts) -/

/-- Regex `@\w+\.route\s*\(\s*['"]([^'"]+)['"]` at the head — the captured
path. -/
def atFlaskRoute (l : List Char) : Option (List Char) := do
  let r ← match l with | '@' :: r => pure r | _ => none
  let (w, r) := takeWord r
  guard (w ≠ [])
  let r ← dropLit r (chars ".route")
  let r := r.dropWhile isJsWs
  let r ← match r with | '(' :: r => pure r | _ => none
  let r := r.dropWhile isJsWs
  let r ← match r with | c :: r => if isQuote c then pure r else none | _ => none
  let cap := r.takeWhile (fun c => !isQuote c)
  guard (cap ≠ [])
  match r.dropWhile (fun c => !isQuote c) with
  | c :: _ => if isQuote c then pure cap else none
  | [] => none

/-- Regex `methods\s*=\s*\[([^\]]+)\]` at the head — the captured list
body. -/
def atMethodsList (l : List Char) : Option (List Char) := do
  let r ← dropLit l (chars "methods")
  let r := r.dropWhile isJsWs
  let r ← match r with | '=' :: r => pure r | _ => none
  let r := r.dropWhile isJsWs
  let r ← match r with | '[' :: r => pure r | _ => none
  let cap := r.takeWhile (· != ']')
  guard (cap ≠ [])
  match r.dropWhile (· != ']') with
  | ']' :: _ => pure cap
  | _ => none

/-- Regex `['"]([A-Z]+)['"]` at the head (a quoted HTTP verb); combined
with the quote-stripping `.replace` of the source, the useful value is the
captured letters. -/
def atQuotedUpper (l : List Char) : Option (List Char × List Char) := do
  let r ← match l with | c :: r => if isQuote c then pure r else none | _ => none
  let cap := r.takeWhile isUpperAZ
  guard (cap ≠ [])
  match r.dropWhile isUpperAZ with
  | c :: r2 => if isQuote c then pure (cap, r2) else none
  | [] => none

/-- extractFlaskRoutes from src/indexer/generator.ts. -/
def extractFlaskRoutes (fi : FileIndex) (content : String) : List ApiEndpoint :=
  let lines := splitChar '\n' (chars content)
  let auth := containsSub (chars content) (chars "@jwt_required")
              || containsSub (chars content) (chars "@login_required")
  fi.functions.flatMap fun func =>
    let lo := func.line - 10
    let idxs := List.range' lo (min func.line lines.length - lo)
    let scan := idxs.foldl
      (fun (acc : List Char × List String) i =>
        let line := lines.getD i []
        let acc := match findFirstF atFlaskRoute line.length line with
          | some p => (p, acc.2)
          | none => acc
        match findFirstF atMethodsList line.length line with
        | some ms => (acc.1, (scanAllF atQuotedUpper ms.length ms).map ofChars)
        | none => acc)
      ([], [])
    if scan.1 ≠ [] then
      let methods := if scan.2 ≠ [] then scan.2 else ["GET"]
      methods.map fun m =>
        { method := m, path := ofChars scan.1, handler := func.name,
          file := fi.relativePath, line := func.line, auth := auth }
    else []

/-- Regex `@api_view\(\[([^\]]+)\]\)\s*def\s+(\w+)` at the head — the
methods text and the function name. -/
def atApiView (l : List Char) : Option ((List Char × List Char) × List Char) := do
  let r ← dropLit l (chars "@api_view([")
  let cap := r.takeWhile (· != ']')
  guard (cap ≠ [])
  let r ← match r.dropWhile (· != ']') with | ']' :: r => pure r | _ => none
  let r ← match r with | ')' :: r => pure r | _ => none
  let r := r.dropWhile isJsWs
  let r ← dropLit r (chars "def")
  guard (headIsWs r)
  let r := r.dropWhile isJsWs
  let (fname, r) := takeWord r
  guard (fname ≠ [])
  pure ((cap, fname), r)

/-- Regex `class\s+(\w+)\(.*?View\)` at the head (the lazy dot does not
cross newlines) — the class name. -/
def atCBV (l : List Char) : Option (List Char × List Char) := do
  let r ← dropLit l (chars "class")
  guard (headIsWs r)
  let r := r.dropWhile isJsWs
  let (name, r) := takeWord r
  guard (name ≠ [])
  let r ← match r with | '(' :: r => pure r | _ => none
  let seg := r.takeWhile (· != '\n')
  let i ← indexOfSub seg (chars "View)")
  pure (name, r.drop (i + 5))

/-- extractDjangoRoutes from src/indexer/generator.ts. -/
def extractDjangoRoutes (fi : FileIndex) (content : String) : List ApiEndpoint :=
  let c := chars content
  let auth1 := containsSub c (chars "@permission_classes") || containsSub c (chars "IsAuthenticated")
  let auth2 := containsSub c (chars "LoginRequiredMixin") || containsSub c (chars "PermissionRequiredMixin")
  let part1 := (scanAllF atApiView c.length c).flatMap fun msFn =>
    let funcName := ofChars msFn.2
    let ms := (scanAllF atQuotedUpper msFn.1.length msFn.1).map ofChars
    let methods := if ms.isEmpty then ["GET"] else ms
    match fi.functions.find? (fun f => f.name == funcName) with
    | some func =>
      methods.map fun m =>
        { method := m,
          path := "/api/" ++ ofChars (msFn.2.map (fun ch => if ch == '_' then '-' else ch)),
          handler := funcName, file := fi.relativePath, line := func.line, auth := auth1 }
    | none => []
  let part2 := (scanAllF atCBV c.length c).flatMap fun clsName =>
    match fi.classes.find? (fun k => k.name == ofChars clsName) with
    | some cls =>
      (["get", "post", "put", "patch", "delete"]).flatMap fun m =>
        if cls.methods.any (fun mm => mm.name == m) then
          [{ method := ofChars (upperList (chars m)),
             path := "/api/" ++ ofChars (replaceFirstSub (lowerList clsName) (chars "view") []),
             handler := ofChars clsName ++ "." ++ m,
             file := fi.relativePath, line := cls.line, auth := auth2 }]
        else []
    | none => []
  part1 ++ part2

/-- Regex `(?:app|router)\.VERB\s*\(\s*['"]([^'"]+)['"]` at the head — the
captured path. -/
def atExpressRoute (verb : List Char) (l : List Char) : Option (List Char × List Char) := do
  let r ← match dropLit l (chars "app") with
    | some r => pure r
    | none => dropLit l (chars "router")
  let r ← match r with | '.' :: r => pure r | _ => none
  let r ← dropLit r verb
  let r := r.dropWhile isJsWs
  let r ← match r with | '(' :: r => pure r | _ => none
  let r := r.dropWhile isJsWs
  let r ← match r with | c :: r => if isQuote c then pure r else none | _ => none
  let cap := r.takeWhile (fun c => !isQuote c)
  guard (cap ≠ [])
  match r.dropWhile (fun c => !isQuote c) with
  | c :: r2 => if isQuote c then pure (cap, r2) else none
  | [] => none

/-- extractExpressRoutes from src/indexer/generator.ts. -/
def extractExpressRoutes (fi : FileIndex) (content : String) : List ApiEndpoint :=
  let c := chars content
  let auth := containsSub c (chars "authenticate") || containsSub c (chars "authMiddleware")
  ([("get", "GET"), ("post", "POST"), ("put", "PUT"), ("delete", "DELETE"), ("patch", "PATCH")]).flatMap
    fun vm =>
      (scanAllPosF (atExpressRoute (chars vm.1)) c.length 0 c).map fun pm =>
        { method := vm.2, path := ofChars pm.1, handler := "handler",
          file := fi.relativePath, line := lineOfPos c pm.2, auth := auth }

/-- Regex `@Controller\s*\(\s*['"]([^'"]*)['"]` at the head — a possibly
empty captured base path. -/
def atController (l : List Char) : Option (List Char) := do
  let r ← dropLit l (chars "@Controller")
  let r := r.dropWhile isJsWs
  let r ← match r with | '(' :: r => pure r | _ => none
  let r := r.dropWhile isJsWs
  let r ← match r with | c :: r => if isQuote c then pure r else none | _ => none
  let cap := r.takeWhile (fun c => !isQuote c)
  match r.dropWhile (fun c => !isQuote c) with
  | c :: _ => if isQuote c then pure cap else none
  | [] => none

/-- Regex `@Verb\s*\(\s*['"]([^'"]*)['"]` at the head — a possibly empty
captured route path. -/
def atNestDecor (decor : List Char) (l : List Char) : Option (List Char × List Char) := do
  let r ← dropLit l decor
  let r := r.dropWhile isJsWs
  let r ← match r with | '(' :: r => pure r | _ => none
  let r := r.dropWhile isJsWs
  let r ← match r with | c :: r => if isQuote c then pure r else none | _ => none
  let cap := r.takeWhile (fun c => !isQuote c)
  match r.dropWhile (fun c => !isQuote c) with
  | c :: r2 => if isQuote c then pure (cap, r2) else none
  | [] => none

/-- Regex `async\s+(\w+)\s*\(|\s+(\w+)\s*\(` at the head — the recovered
handler name. -/
def atHandlerSig (l : List Char) : Option (List Char) :=
  match (do
    let r ← dropLit l (chars "async")
    guard (headIsWs r)
    let r := r.dropWhile isJsWs
    let (w, r) := takeWord r
    guard (w ≠ [])
    let r := r.dropWhile isJsWs
    match r with | '(' :: _ => pure w | _ => none : Option (List Char)) with
  | some w => some w
  | none => do
    guard (headIsWs l)
    let r := l.dropWhile isJsWs
    let (w, r) := takeWord r
    guard (w ≠ [])
    let r := r.dropWhile isJsWs
    match r with | '(' :: _ => pure w | _ => none

/-- extractNestJSRoutes from src/indexer/generator.ts. -/
def extractNestJSRoutes (fi : FileIndex) (content : String) : List ApiEndpoint :=
  let c := chars content
  let auth := containsSub c (chars "@UseGuards") || containsSub c (chars "AuthGuard")
  let basePath := match findFirstF atController c.length c with
    | some cap => "/" ++ ofChars cap
    | none => ""
  ([("@Get", "GET"), ("@Post", "POST"), ("@Put", "PUT"), ("@Delete", "DELETE"), ("@Patch", "PATCH")]).flatMap
    fun dm =>
      (scanAllPosF (atNestDecor (chars dm.1)) c.length 0 c).map fun pm =>
        let fullPath := basePath ++ (if pm.1.isEmpty then "" else "/" ++ ofChars pm.1)
        let sub := c.drop pm.2
        let handlerName := match findFirstF atHandlerSig sub.length sub with
          | some w => ofChars w
          | none => "handler"
        { method := dm.2, path := fullPath, handler := handlerName,
          file := fi.relativePath, line := lineOfPos c pm.2, auth := auth }

/-- The `(.+)\.(?:ts|js|tsx|jsx)$` tail of the route-path regex: with the
greedy dot, the extension is the shortest suffix alternative present at
the very end; the capture must be non-empty. -/
def extSplit (rest : List Char) : Option (List Char) :=
  if endsList rest (chars ".ts") || endsList rest (chars ".js") then
    let cap := rest.take (rest.length - 3)
    if cap.isEmpty then none else some cap
  else if endsList rest (chars ".tsx") || endsList rest (chars ".jsx") then
    let cap := rest.take (rest.length - 4)
    if cap.isEmpty then none else some cap
  else none

/-- Regex `\/(?:pages|app)\/api\/(.+)\.(?:ts|js|tsx|jsx)$` — the captured
route-path text (paths contain no newline, so the dot class is
unrestricted here). -/
def nextApiCapture : Nat → List Char → Option (List Char)
  | 0, _ => none
  | _ + 1, [] => none
  | fuel + 1, l@(_ :: rest) =>
    match (dropLit l (chars "/pages/api/")).orElse (fun _ => dropLit l (chars "/app/api/")) with
    | some r =>
      match extSplit r with
      | some cap => some cap
      | none => nextApiCapture fuel rest
    | none => nextApiCapture fuel rest

/-- Global replace of `\[([^\]]+)\]` by `:$1`. -/
def bracketsToParams : Nat → List Char → List Char
  | 0, l => l
  | _ + 1, [] => []
  | fuel + 1, c :: rest =>
    if c == '[' then
      let inner := rest.takeWhile (· != ']')
      match rest.dropWhile (· != ']') with
      | ']' :: tail =>
        if inner.isEmpty then '[' :: bracketsToParams fuel rest
        else ':' :: (inner ++ bracketsToParams fuel tail)
      | _ => '[' :: bracketsToParams fuel rest
    else c :: bracketsToParams fuel rest

/-- The per-verb handler test of extractNextJSRoutes. -/
def nextHasHandler (content : String) (method : String) : Bool :=
  containsSub (chars content) (chars ("export async function " ++ method))
  || containsSub (chars content) (chars ("export function " ++ method))
  || (method == "GET" && containsSub (chars content) (chars "export default"))

/-- extractNextJSRoutes from src/indexer/generator.ts. -/
def extractNextJSRoutes (filePath : String) (fi : FileIndex) (content : String) :
    List ApiEndpoint :=
  let p := chars filePath
  if containsSub p (chars "/pages/api/") || containsSub p (chars "/app/api/") then
    match nextApiCapture p.length p with
    | some cap =>
      let routePath := "/api/" ++ ofChars (bracketsToParams cap.length
        (cap.map (fun ch => if ch == bslash then '/' else ch)))
      (["GET", "POST", "PUT", "DELETE", "PATCH"]).filterMap fun m =>
        if nextHasHandler content m then
          some { method := m, path := routePath, handler := ofChars (lowerList (chars m)),
                 file := fi.relativePath, line := 1,
                 auth := containsSub (chars content) (chars "getServerSession")
                         || containsSub (chars content) (chars "auth") }
        else none
    | none => []
  else []

/-! ## Schema extraction (src/indexer/generator.ts) -/

/-- Regex (built with `new RegExp`) `NAME\s*=\s*(?:db\.)?Column\([^)]+\)`
at the head — returns the remainder after the match. -/
def atColDef (name : List Char) (l : List Char) : Option (List Char) := do
  let r ← dropLit l name
  let r := r.dropWhile isJsWs
  let r ← match r with | '=' :: r => pure r | _ => none
  let r := r.dropWhile isJsWs
  let r := (dropLit r (chars "db.")).getD r
  let r ← dropLit r (chars "Column(")
  let cap := r.takeWhile (· != ')')
  guard (cap ≠ [])
  match r.dropWhile (· != ')') with
  | ')' :: rest => pure rest
  | _ => none

/-- Regex `ForeignKey\(['"]([\w.]+)['"]` at the head — the captured
target. -/
def atFK (l : List Char) : Option (List Char) := do
  let r ← dropLit l (chars "ForeignKey(")
  let r ← match r with | c :: r => if isQuote c then pure r else none | _ => none
  let cap := r.takeWhile (fun c => isWordChar c || c == '.')
  guard (cap ≠ [])
  match r.dropWhile (fun c => isWordChar c || c == '.') with
  | c :: _ => if isQuote c then pure cap else none
  | [] => none

/-- extractSQLAlchemySchema from src/indexer/generator.ts. -/
def extractSQLAlchemySchema (fi : FileIndex) (content : String) : List DbTable :=
  let c := chars content
  if !containsSub c (chars "db.Model") && !containsSub c (chars "Base") then []
  else
    fi.classes.filterMap fun cls =>
      if cls.properties.length > 0 then
        some { name := cls.name, file := fi.relativePath, line := cls.line,
               columns := cls.properties.map fun prop =>
                 let parts := (splitChar ':' (chars prop)).map trimChars
                 let pname := parts.getD 0 []
                 let typeInfo := parts.getD 1 []
                 let fullDef := match findFirstMatchF (atColDef pname) c.length c with
                   | some m => m
                   | none => typeInfo
                 { name := ofChars pname,
                   type := ofChars (replaceFirstSub (takeBeforeSub typeInfo ['(']) (chars "db.") []),
                   nullable := !containsSub fullDef (chars "nullable=False"),
                   primary := containsSub fullDef (chars "primary_key=True"),
                   foreign := (findFirstF atFK fullDef.length fullDef).map ofChars } }
      else none

/-- Regex `(\w+)\s*=\s*models\.(\w+Field)\(([^)]*)\)` at the head —
(field name, field type, parameter text). -/
def atFieldMatch (l : List Char) : Option ((List Char × List Char × List Char) × List Char) := do
  let (name, r) := takeWord l
  guard (name ≠ [])
  let r := r.dropWhile isJsWs
  let r ← match r with | '=' :: r => pure r | _ => none
  let r := r.dropWhile isJsWs
  let r ← dropLit r (chars "models.")
  let (w, r) := takeWord r
  guard (endsList w (chars "Field") && w.length ≥ 6)
  let r ← match r with | '(' :: r => pure r | _ => none
  let params := r.takeWhile (· != ')')
  match r.dropWhile (· != ')') with
  | ')' :: rest => pure ((name, w, params), rest)
  | _ => none

/-- extractDjangoModels from src/indexer/generator.ts (note the
JavaScript `substring` clamping and swapping semantics on the -1 returned
by a failed `indexOf`). -/
def extractDjangoModels (fi : FileIndex) (content : String) : List DbTable :=
  let c := chars content
  if !containsSub c (chars "models.Model") then []
  else
    fi.classes.filterMap fun cls =>
      let start := jsIndexOfFrom c (chars ("class " ++ cls.name)) 0
      let stop := jsIndexOfFrom c (chars "\nclass ") (start + 1)
      let classContent := jsSubstring c start stop
      let fields := scanAllF atFieldMatch classContent.length classContent
      let columns : List DbColumn := fields.map fun f =>
        { name := ofChars f.1, type := ofChars f.2.1,
          nullable := containsSub f.2.2 (chars "null=True"),
          primary := containsSub f.2.2 (chars "primary_key=True"),
          foreign := (findFirstF atFK f.2.2.length f.2.2).map ofChars }
      if columns.length > 0 then
        some { name := cls.name, file := fi.relativePath, line := cls.line, columns := columns }
      else none

/-- The largest count of literal s characters (the JavaScript template
literal renders the intended whitespace class as a literal s) after which
the property name follows. -/
def greedySrun (name r : List Char) : Nat → Option Nat
  | 0 => if startsList r name then some 0 else none
  | j + 1 => if startsList (r.drop (j + 1)) name then some (j + 1) else greedySrun name r j

/-- Regex (built with `new RegExp` from a template literal in which the
backslash-s sequences collapse to plain s characters)
`@(?:Primary)?Column[^NL]*NLs*NAME` at the head, NL being a literal
newline — returns the remainder after the match. -/
def atTypeormProp (name : List Char) (l : List Char) : Option (List Char) := do
  let r ← match l with | '@' :: r => pure r | _ => none
  let r ← match dropLit r (chars "PrimaryColumn") with
    | some r' => pure r'
    | none => dropLit r (chars "Column")
  let r := r.dropWhile (· != '\n')
  let r ← match r with | '\n' :: r => pure r | _ => none
  let srun := (r.takeWhile (· == 's')).length
  let j ← greedySrun name r srun
  pure ((r.drop j).drop name.length)

/-- Regex `@ManyToOne.*?=>\s*(\w+)` at the head (the lazy dot does not
cross newlines; the whitespace class here is genuine). -/
def atManyToOne (l : List Char) : Option (List Char) := do
  let r ← dropLit l (chars "@ManyToOne")
  let seg := r.takeWhile (· != '\n')
  let i ← indexOfSub seg (chars "=>")
  let r := (r.drop (i + 2)).dropWhile isJsWs
  let (w, _) := takeWord r
  guard (w ≠ [])
  pure w

/-- extractTypeORMSchema from src/indexer/generator.ts. -/
def extractTypeORMSchema (fi : FileIndex) (content : String) : List DbTable :=
  let c := chars content
  if !containsSub c (chars "@Entity") then []
  else
    fi.classes.filterMap fun cls =>
      if cls.properties.length > 0 then
        let start := jsIndexOfFrom c (chars ("class " ++ cls.name)) 0
        let stop := jsIndexOfFrom c (chars "\n\x7d") start
        let classContent := jsSubstring c start stop
        some { name := cls.name, file := fi.relativePath, line := cls.line,
               columns := cls.properties.map fun prop =>
                 let parts := (splitChar ':' (chars prop)).map trimChars
                 let pname := parts.getD 0 []
                 let ptype := parts.getD 1 []
                 let decorators := (findFirstMatchF (atTypeormProp pname)
                   classContent.length classContent).getD []
                 { name := ofChars pname,
                   type := if ptype.isEmpty then "unknown" else ofChars ptype,
                   nullable := containsSub decorators (chars "nullable: true"),
                   primary := containsSub decorators (chars "@PrimaryColumn")
                              || containsSub decorators (chars "primary: true"),
                   foreign := (findFirstF atManyToOne decorators.length decorators).map ofChars } }
      else none

/-- extractPrismaSchema from src/indexer/generator.ts: detection only, no
records are produced. -/
def extractPrismaSchema (_fi : FileIndex) (_content : String) : List DbTable := []

/-! ## Technology tagging and the per-file loop (generateIndex) -/

/-- Add to the insertion-ordered set of detected technologies. -/
def techAdd (techs : List String) (t : String) : List String :=
  if techs.contains t then techs else techs ++ [t]

/-- The simple substring-to-label pairs of the tech-stack detection, in
source order. -/
def techChecks : List (String × String) := [
  ("flask", "Flask"), ("express", "Express"), ("fastapi", "FastAPI"), ("django", "Django"),
  ("@nestjs", "NestJS"), ("koa", "Koa"),
  ("react", "React"), ("next", "Next.js"), ("vue", "Vue"), ("@angular", "Angular"),
  ("svelte", "Svelte"), ("solid-js", "Solid.js"),
  ("sqlalchemy", "SQLAlchemy"), ("mongoose", "Mongoose"), ("prisma", "Prisma"),
  ("typeorm", "TypeORM"), ("sequelize", "Sequelize"), ("drizzle", "Drizzle ORM")]

/-- The tech-stack tests applied to one import's lower-cased source. -/
def detectTechsImport (techs : List String) (imp : ImportInfo) : List String :=
  let src := lowerList (chars imp.source)
  let techs := techChecks.foldl (fun acc sc =>
    if containsSub src (chars sc.1) then techAdd acc sc.2 else acc) techs
  let techs := if containsSub src (chars "graphql") || containsSub src (chars "apollo")
    then techAdd techs "GraphQL" else techs
  let techs := if containsSub src (chars "jwt") || containsSub src (chars "jsonwebtoken")
    then techAdd techs "JWT Auth" else techs
  let techs := if containsSub src (chars "bcrypt") then techAdd techs "Bcrypt" else techs
  if containsSub src (chars "redis") then techAdd techs "Redis" else techs

def detectTechs (techs : List String) (imports : List ImportInfo) : List String :=
  imports.foldl detectTechsImport techs

/-- The shape of the external TypeScript-compiler-based extractor
(parseTypeScriptFile builds on the external compiler library, so it is a
parameter of the model): file path, content, workspace root, language. -/
def TsParse := String → String → String → Lang → FileIndex

/-- parseFile from src/indexer/parser.ts: extension dispatch; an
unrecognized extension is an error. -/
def parseFile (tsParse : TsParse) (inclImports : Bool)
    (filePath content workspaceRoot : String) : Except String FileIndex :=
  let ext := extname filePath
  if ext == ".ts" || ext == ".tsx" then
    .ok (tsParse filePath content workspaceRoot .typescript)
  else if ext == ".js" || ext == ".jsx" then
    .ok (tsParse filePath content workspaceRoot .javascript)
  else if ext == ".py" then
    .ok (parsePythonFile inclImports filePath content workspaceRoot)
  else
    .error ("Unsupported file type: " ++ ext)

/-- The in-memory part of the project model built by generateIndex (the
generation timestamp and the rendered outputs are external effects). -/
structure GenModel where
  projectName : String
  fileCount : Nat := 0
  functionCount : Nat := 0
  classCount : Nat := 0
  files : List FileIndex := []
  techs : List String := []
  apiEndpoints : List ApiEndpoint := []
  dbSchema : List DbTable := []
deriving DecidableEq

/-- The successful-file body of generateIndex's loop: record the file,
bump the counts, tag technologies, and run the per-language route and
schema extractors. -/
def accumulateFile (st : GenModel) (file : String) (content : String) (fi : FileIndex) :
    GenModel :=
  let st := { st with files := st.files ++ [fi], fileCount := st.fileCount + 1,
                      functionCount := st.functionCount + fi.functions.length,
                      classCount := st.classCount + fi.classes.length,
                      techs := detectTechs st.techs fi.imports }
  let newEndpoints := match fi.language with
    | .python => extractFlaskRoutes fi content ++ extractDjangoRoutes fi content
    | _ => extractExpressRoutes fi content ++ extractNestJSRoutes fi content
           ++ extractNextJSRoutes file fi content
  let newTables := match fi.language with
    | .python => extractSQLAlchemySchema fi content ++ extractDjangoModels fi content
    | _ => extractTypeORMSchema fi content ++ extractPrismaSchema fi content
  { st with apiEndpoints := st.apiEndpoints ++ newEndpoints,
            dbSchema := st.dbSchema ++ newTables }

/-- Reading then parsing one file; either step can fail. -/
def fileResult (tsParse : TsParse) (inclImports : Bool)
    (readFileContent : String → Except String String) (workspaceRoot file : String) :
    Except String (String × FileIndex) := do
  let content ← readFileContent file
  let fi ← parseFile tsParse inclImports file content workspaceRoot
  pure (content, fi)

/-- One iteration of generateIndex's loop: the catch clause only logs, so
a failed file leaves the model unchanged. -/
def processOneFile (tsParse : TsParse) (inclImports : Bool)
    (readFileContent : String → Except String String) (workspaceRoot : String)
    (st : GenModel) (file : String) : GenModel :=
  match fileResult tsParse inclImports readFileContent workspaceRoot file with
  | .error _ => st
  | .ok (content, fi) => accumulateFile st file content fi

/-- The model-building part of generateIndex from
src/indexer/generator.ts, folded over the enumerated files. -/
def generateIndexModel (tsParse : TsParse) (inclImports : Bool)
    (readFileContent : String → Except String String) (workspaceRoot : String)
    (files : List String) : GenModel :=
  files.foldl (processOneFile tsParse inclImports readFileContent workspaceRoot)
    { projectName := pathBasename workspaceRoot }

/-! ## Concrete inputs used by the claims -/

/-- A decorator-scan file: a route decorator with an explicit methods list
directly above a function. -/
def flaskWithMethods : String :=
  "@app.route(\"/widgets\", methods=[\"GET\", \"POST\"])\ndef list_widgets():\n    return []"

/-- A decorator-scan file: a route decorator with no methods list. -/
def flaskNoMethods : String :=
  "@app.route(\"/widgets\")\ndef list_widgets():\n    return []"

/-- A route decorator nine lines above the function's declaration line
(the declaration is on line 10). -/
def flaskDecorNine : String :=
  "@app.route(\"/widgets\")\n\n\n\n\n\n\n\n\ndef list_widgets():\n    return []"

/-- A route decorator ten lines above the function's declaration line
(the declaration is on line 11). -/
def flaskDecorTen : String :=
  "@app.route(\"/widgets\")\n\n\n\n\n\n\n\n\n\ndef list_widgets():\n    return []"

/-- A single-line triple-quoted docstring pending right before a class
header. -/
def pyClassDocstring : String :=
  "\"\"\"Widget store.\"\"\"\nclass Widget(Base):\n    pass"

/-- A multi-line column call whose first captured line is
parenthesis-balanced (`Column(Integer,` — the opening parenthesis of the
call itself is not part of the capture). -/
def pyColumnBalanced : String :=
  "class M(Base):\n    x = Column(Integer,\n        y: Integer = 0)"

/-- A multi-line column call whose first captured line has positive
parenthesis balance (`Column(String(`). -/
def pyColumnOpen : String :=
  "class M(Base):\n    x = Column(String(\n        z: Integer), nullable=False)"

/-- A declarative class with a primary-key column. -/
def pyPrimaryColumn : String :=
  "class User(Base):\n    id = Column(Integer, primary_key=True)"

/-- Two classes each declaring a column named id, with different
markers. -/
def pyTwoClassesSameColumn : String :=
  "class A(Base):\n    id = Column(Integer, primary_key=True)\n\nclass B(Base):\n    id = Column(Integer, nullable=False)"

/-- One class matching both the declarative marker (Base) and the Django
marker (models.Model), followed by a second class. -/
def pyDoubleOrmClass : String :=
  "class User(models.Model, Base):\n    id = Column(Integer, primary_key=True)\n    name = models.CharField(max_length=50)\n\nclass Other(Base):\n    pass"

/-! ## Claim theorems -/

/-- Claim C3: with a route decorator naming path /widgets and a
methods=[GET, POST] list directly above function list_widgets, extraction
yields exactly the two endpoints GET /widgets and POST /widgets, both
with handler list_widgets and the function's declared line (2); with no
methods list, exactly one GET endpoint is emitted. -/
theorem flask_route_methods_c3 :
    extractFlaskRoutes (parsePythonFile false "/w/app.py" flaskWithMethods "/w") flaskWithMethods
        = [⟨"GET", "/widgets", "list_widgets", "app.py", 2, false⟩,
           ⟨"POST", "/widgets", "list_widgets", "app.py", 2, false⟩]
    ∧ extractFlaskRoutes (parsePythonFile false "/w/app.py" flaskNoMethods "/w") flaskNoMethods
        = [⟨"GET", "/widgets", "list_widgets", "app.py", 2, false⟩] := by
  decide

/-- Claim C4: a single-line triple-quoted docstring pending when the
class header is scanned becomes the class's description, equal to the
text between the quotes, trimmed ("Widget store."). -/
theorem python_class_docstring_c4 :
    (parsePythonFile false "/w/m.py" pyClassDocstring "/w").classes
      = [{ name := "Widget", line := 2, methods := [], isExported := true,
           description := some "Widget store.", properties := [] }] := by
  decide

/-- Claim C5 counterexample: for the multi-line column call
`x = Column(Integer,` / `y: Integer = 0)` the first line's captured text
is parenthesis-balanced, so the continuation line is NOT consumed and is
processed by the generic-attribute rule, contributing the property record
"y: Integer" — refuting the claim that for every multi-line column call
the continuation lines are consumed and contribute no other records. -/
theorem column_continuation_counterexample_c5 :
    ((parsePythonFile false "/w/m.py" pyColumnBalanced "/w").classes.map ClassInfo.properties)
      = [["x: Integer", "y: Integer"]] := by
  decide

/-- Claim C5 as amended: the parenthesis depth is tracked over the text
captured after the opening parenthesis of the call (which itself is not
counted), and continuation lines are concatenated and consumed only while
that balance is positive; the recorded type is the text up to the first
comma or parenthesis.  Hence `Column(String(` (balance 1) consumes its
continuation line, which contributes no record, and the type is String;
while `Column(Integer,` (balance 0) consumes nothing and its continuation
line is processed by the later rules and may contribute a record. -/
theorem column_continuation_amended_c5 :
    ((parsePythonFile false "/w/m.py" pyColumnOpen "/w").classes.map ClassInfo.properties)
        = [["x: String"]]
    ∧ ((parsePythonFile false "/w/m.py" pyColumnBalanced "/w").classes.map ClassInfo.properties)
        = [["x: Integer", "y: Integer"]] := by
  decide

/-- Claim C6: for `id = Column(Integer, primary_key=True)` on a class in
a file containing the declarative marker (Base), the Column record has
name id, primary true, nullable true (no explicit nullable=False marker)
and no foreign-key target. -/
theorem sqlalchemy_primary_column_c6 :
    extractSQLAlchemySchema (parsePythonFile false "/w/models.py" pyPrimaryColumn "/w")
        pyPrimaryColumn
      = [{ name := "User", file := "models.py", line := 1,
           columns := [{ name := "id", type := "Integer", nullable := true,
                         primary := true, foreign := none }] }] := by
  decide

/-- Claim C7 counterexample: a route decorator lying exactly 10 lines
before the declaration line (decorator on line 1, declaration on line 11)
is inside the claimed ten-preceding-lines window but is NOT recognized:
the scan covers zero-based indices max(0, line-10) .. line-1, which are
the nine preceding lines plus the declaration line itself. -/
theorem flask_window_counterexample_c7 :
    extractFlaskRoutes (parsePythonFile false "/w/app.py" flaskDecorTen "/w") flaskDecorTen
      = [] := by
  decide

/-- Claim C7 as amended: the decorator scan covers the zero-based line
indices from max(0, line-10) to line-1, i.e. the nine lines immediately
preceding the declaration plus the declaration line itself; a route
decorator within the nine preceding lines is recognized (decorator on
line 1, declaration on line 10), while one ten or more lines before the
declaration is not (decorator on line 1, declaration on line 11). -/
theorem flask_window_amended_c7 :
    extractFlaskRoutes (parsePythonFile false "/w/app.py" flaskDecorNine "/w") flaskDecorNine
        = [⟨"GET", "/widgets", "list_widgets", "app.py", 10, false⟩]
    ∧ extractFlaskRoutes (parsePythonFile false "/w/app.py" flaskDecorTen "/w") flaskDecorTen
        = [] := by
  decide

/-- Claim C8: on a single file whose class User satisfies both the
declarative marker (Base) and the Django marker (models.Model), running
the two schema rules the way generateIndex does (both appending to the
same table list) emits two Table records named User — no deduplication
across schema rules.  (The trailing Other record comes from the Django
rule's text-slicing treatment of the last class in the file.) -/
theorem schema_rules_double_emit_c8 :
    ((extractSQLAlchemySchema (parsePythonFile false "/w/models.py" pyDoubleOrmClass "/w")
          pyDoubleOrmClass
        ++ extractDjangoModels (parsePythonFile false "/w/models.py" pyDoubleOrmClass "/w")
          pyDoubleOrmClass).map DbTable.name)
        = ["User", "User", "Other"]
    ∧ ((extractSQLAlchemySchema (parsePythonFile false "/w/models.py" pyDoubleOrmClass "/w")
          pyDoubleOrmClass
        ++ extractDjangoModels (parsePythonFile false "/w/models.py" pyDoubleOrmClass "/w")
          pyDoubleOrmClass).countP (fun t => t.name == "User"))
        = 2 := by
  decide

/-- Claim C9: the declarative-column rule searches the whole file text for
the first `name = Column(...)` occurrence, regardless of the class the
property belongs to: with class A declaring
`id = Column(Integer, primary_key=True)` and class B declaring
`id = Column(Integer, nullable=False)`, B's column record is classified
from A's (the first) definition — primary true and nullable true — even
though B's own definition has the not-null marker (which the file
provably contains) and no primary-key marker. -/
theorem sqlalchemy_first_occurrence_c9 :
    (extractSQLAlchemySchema (parsePythonFile false "/w/models.py" pyTwoClassesSameColumn "/w")
        pyTwoClassesSameColumn).map (fun t => (t.name, t.columns))
        = [("A", [⟨"id", "Integer", true, true, none⟩]),
           ("B", [⟨"id", "Integer", true, true, none⟩])]
    ∧ containsSub (chars pyTwoClassesSameColumn) (chars "nullable=False") = true := by
  decide

/-- A route-convention file body exporting only a GET handler (no other
verb handlers and no default export). -/
def nextGetOnly : String := "export function GET(req) return respond(req)"

/-- Claim C1 counterexample: for the App-Router-style path
`/p/app/api/users/[id]/route.ts` with a file exporting only a GET
handler, the single emitted endpoint's path is `/api/users/:id/route` —
the rule strips only the extension and converts the bracketed segment,
keeping the trailing route-file segment — not the claimed
`/api/users/:id`. -/
theorem nextjs_route_counterexample_c1 :
    ((extractNextJSRoutes "/p/app/api/users/[id]/route.ts"
        ⟨"/p/app/api/users/[id]/route.ts", "app/api/users/[id]/route.ts", [], [], [], [],
         .typescript⟩ nextGetOnly).map ApiEndpoint.path)
        = ["/api/users/:id/route"]
    ∧ ("/api/users/:id/route" : String) ≠ "/api/users/:id" := by
  decide

/-- Claim C1 as amended: for a file at `/p/app/api/users/[id]/route.ts`
whose text has a GET handler export and no POST/PUT/DELETE/PATCH handler
exports, route extraction emits exactly one Endpoint with method GET,
path `/api/users/:id/route` (bracketed segment converted, extension
stripped, trailing route-file segment kept), handler `get` (the verb
lower-cased), and line 1. -/
theorem nextjs_route_amended_c1 (fi : FileIndex) (content : String)
    (hGET : nextHasHandler content "GET" = true)
    (hPOST : nextHasHandler content "POST" = false)
    (hPUT : nextHasHandler content "PUT" = false)
    (hDELETE : nextHasHandler content "DELETE" = false)
    (hPATCH : nextHasHandler content "PATCH" = false) :
    extractNextJSRoutes "/p/app/api/users/[id]/route.ts" fi content
      = [{ method := "GET", path := "/api/users/:id/route", handler := "get",
           file := fi.relativePath, line := 1,
           auth := containsSub (chars content) (chars "getServerSession")
                   || containsSub (chars content) (chars "auth") }] := by
  have step : extractNextJSRoutes "/p/app/api/users/[id]/route.ts" fi content
      = (["GET", "POST", "PUT", "DELETE", "PATCH"]).filterMap (fun m =>
          if nextHasHandler content m then
            some { method := m, path := "/api/users/:id/route",
                   handler := ofChars (lowerList (chars m)), file := fi.relativePath, line := 1,
                   auth := containsSub (chars content) (chars "getServerSession")
                           || containsSub (chars content) (chars "auth") }
          else none) := rfl
  rw [step]
  simp only [List.filterMap_cons, hGET, hPOST, hPUT, hDELETE, hPATCH, if_true, if_false,
    List.filterMap_nil]
  rfl

/-- Claim C1 witness: the amended theorem applied to the concrete
GET-only file body. -/
theorem nextjs_route_amended_c1_witness :
    (nextHasHandler nextGetOnly "GET" = true ∧ nextHasHandler nextGetOnly "POST" = false)
    ∧ extractNextJSRoutes "/p/app/api/users/[id]/route.ts"
        ⟨"/p/app/api/users/[id]/route.ts", "app/api/users/[id]/route.ts", [], [], [], [],
         .typescript⟩ nextGetOnly
      = [{ method := "GET", path := "/api/users/:id/route", handler := "get",
           file := "app/api/users/[id]/route.ts", line := 1, auth := false }] :=
  ⟨⟨by decide, by decide⟩,
   (nextjs_route_amended_c1
      ⟨"/p/app/api/users/[id]/route.ts", "app/api/users/[id]/route.ts", [], [], [], [],
       .typescript⟩ nextGetOnly
      (by decide) (by decide) (by decide) (by decide) (by decide)).trans (by decide)⟩

/-- A stand-in for the external TypeScript-compiler-based branch, used to
instantiate the error-containment theorem at concrete inputs. -/
def tsParseStub : TsParse := fun p _ _ lang => ⟨p, p, [], [], [], [], lang⟩

/-- A concrete read function: a readable Python file and a readable file
of an unsupported type, everything else unreadable. -/
def envStub : String → Except String String := fun f =>
  if f == "/w/a.py" then .ok "def f():\n    return 1"
  else if f == "/w/b.md" then .ok "# notes"
  else .error "unreadable"

/-- Claim C2: if reading-then-parsing one file fails (an unsupported
extension reaching the dispatch, or a read failure), the project model
built over the batch equals the model built over the batch with that file
removed: the failed file contributes no file record, no counts, no
endpoints, tables or technology tags, and every other file of the batch
is processed exactly as before.  The fold is total, so the run never
aborts. -/
theorem generateIndex_isolates_failure_c2 (tsParse : TsParse) (inclImports : Bool)
    (readF : String → Except String String) (root : String)
    (pre post : List String) (bad : String)
    (h : (fileResult tsParse inclImports readF root bad).isOk = false) :
    generateIndexModel tsParse inclImports readF root (pre ++ bad :: post)
      = generateIndexModel tsParse inclImports readF root (pre ++ post) := by
  have hstep : ∀ st, processOneFile tsParse inclImports readF root st bad = st := by
    intro st
    unfold processOneFile
    cases hfr : fileResult tsParse inclImports readF root bad with
    | error e => rfl
    | ok v => rw [hfr] at h; exact absurd h (by simp [Except.isOk, Except.toBool])
  unfold generateIndexModel
  rw [List.foldl_append, List.foldl_append, List.foldl_cons, hstep]

/-- Claim C2 witness: a batch of one readable Python file plus one
unreadable file; the bad file fails and the model equals the model of the
batch without it. -/
theorem generateIndex_isolates_failure_c2_witness :
    (fileResult tsParseStub false envStub "/w" "/w/b.md").isOk = false
    ∧ generateIndexModel tsParseStub false envStub "/w" ["/w/a.py", "/w/b.md"]
        = generateIndexModel tsParseStub false envStub "/w" ["/w/a.py"] :=
  ⟨by decide,
   generateIndex_isolates_failure_c2 tsParseStub false envStub "/w" ["/w/a.py"] [] "/w/b.md"
     (by decide)⟩

/-! ## Line-number invariants of the heuristic extractor (claim C10)

The scanner state keeps its record lists most-recent-first, so the
invariant is: every recorded line lies in [1, b] after b processed lines,
and each list is strictly descending. -/

/-- Bounded, strictly descending line-number list. -/
def linesOK (b : Nat) (xs : List Nat) : Prop :=
  (∀ x ∈ xs, 1 ≤ x ∧ x ≤ b) ∧ xs.Pairwise (· > ·)

theorem linesOK_nil (b : Nat) : linesOK b [] := ⟨by simp, List.Pairwise.nil⟩

theorem linesOK_mono {b b' : Nat} (h : b ≤ b') {xs : List Nat} (hx : linesOK b xs) :
    linesOK b' xs :=
  ⟨fun x hm => ⟨(hx.1 x hm).1, le_trans (hx.1 x hm).2 h⟩, hx.2⟩

theorem linesOK_push {b : Nat} {xs : List Nat} (hx : linesOK b xs) :
    linesOK (b + 1) ((b + 1) :: xs) := by
  constructor
  · intro x hm
    rcases List.mem_cons.mp hm with rfl | hm'
    · omega
    · exact ⟨(hx.1 x hm').1, by have := (hx.1 x hm').2; omega⟩
  · refine List.pairwise_cons.mpr ⟨fun y hy => ?_, hx.2⟩
    have := (hx.1 y hy).2
    omega

/-- Invariant of the scanner state after processing `b` lines. -/
def stOK (b : Nat) (st : PyState) : Prop :=
  linesOK b (st.functionsRev.map FunctionInfo.line)
  ∧ linesOK b (st.classesRev.map ClassInfo.line)
  ∧ linesOK b (st.importsRev.map ImportInfo.line)
  ∧ ∀ c ∈ st.classesRev, linesOK b (c.methods.map FunctionInfo.line)

theorem stOK_mono {b b' : Nat} (h : b ≤ b') {st : PyState} (hs : stOK b st) : stOK b' st :=
  ⟨linesOK_mono h hs.1, linesOK_mono h hs.2.1, linesOK_mono h hs.2.2.1,
   fun c hc => linesOK_mono h (hs.2.2.2 c hc)⟩

theorem stOK_pushClass {b : Nat} {st : PyState} (hs : stOK b st) (nm : String) (ind : Nat) :
    stOK (b + 1) (pushClassSt st nm (b + 1) ind) := by
  unfold pushClassSt
  refine ⟨linesOK_mono (Nat.le_succ b) hs.1, ?_, linesOK_mono (Nat.le_succ b) hs.2.2.1, ?_⟩
  · simpa using linesOK_push hs.2.1
  · intro c hc
    rcases List.mem_cons.mp hc with rfl | hc'
    · simpa using linesOK_nil (b + 1)
    · exact linesOK_mono (Nat.le_succ b) (hs.2.2.2 c hc')

theorem stOK_pushProp {b : Nat} {st : PyState} (hs : stOK b st) (p : String) :
    stOK b (pushPropSt st p) := by
  unfold pushPropSt
  cases hcl : st.classesRev with
  | nil => exact hs
  | cons c rest =>
    refine ⟨hs.1, ?_, hs.2.2.1, ?_⟩
    · have h2 := hs.2.1
      rw [hcl] at h2
      simpa using h2
    · intro k hk
      rcases List.mem_cons.mp hk with rfl | hk'
      · have := hs.2.2.2 c (by rw [hcl]; exact List.mem_cons_self ..)
        simpa using this
      · exact hs.2.2.2 k (by rw [hcl]; exact List.mem_cons_of_mem _ hk')

theorem stOK_pushMethod {b : Nat} {st : PyState} (hs : stOK b st) (line : List Char)
    (nm : String) (mp : List Char) :
    stOK (b + 1) (pushMethodSt st line nm mp (b + 1)) := by
  unfold pushMethodSt
  cases hcl : st.classesRev with
  | nil =>
    refine ⟨linesOK_mono (Nat.le_succ b) hs.1, linesOK_nil _,
      linesOK_mono (Nat.le_succ b) hs.2.2.1, ?_⟩
    intro c hc
    simp at hc
  | cons c rest =>
    refine ⟨linesOK_mono (Nat.le_succ b) hs.1, ?_, linesOK_mono (Nat.le_succ b) hs.2.2.1, ?_⟩
    · have h2 := hs.2.1
      rw [hcl] at h2
      exact linesOK_mono (Nat.le_succ b) (by simpa using h2)
    · intro k hk
      rcases List.mem_cons.mp hk with rfl | hk'
      · have hm := hs.2.2.2 c (by rw [hcl]; exact List.mem_cons_self ..)
        simpa using linesOK_push hm
      · exact linesOK_mono (Nat.le_succ b)
          (hs.2.2.2 k (by rw [hcl]; exact List.mem_cons_of_mem _ hk'))

theorem stOK_pushFunc {b : Nat} {st : PyState} (hs : stOK b st) (line : List Char)
    (nm : String) (fp : List Char) :
    stOK (b + 1) (pushFuncSt st line nm fp (b + 1)) := by
  unfold pushFuncSt
  refine ⟨?_, linesOK_mono (Nat.le_succ b) hs.2.1, linesOK_mono (Nat.le_succ b) hs.2.2.1, ?_⟩
  · simpa using linesOK_push hs.1
  · intro c hc
    exact linesOK_mono (Nat.le_succ b) (hs.2.2.2 c hc)

theorem stOK_pushImport {b : Nat} {st : PyState} (hs : stOK b st) (sm : Option (List Char))
    (r : List Char) :
    stOK (b + 1) (pushImportSt st sm r (b + 1)) := by
  unfold pushImportSt
  refine ⟨linesOK_mono (Nat.le_succ b) hs.1, linesOK_mono (Nat.le_succ b) hs.2.1, ?_, ?_⟩
  · simpa using linesOK_push hs.2.2.1
  · intro c hc
    exact linesOK_mono (Nat.le_succ b) (hs.2.2.2 c hc)

theorem consumeCont_le (pc : Int) (ls : List (List Char)) :
    (consumeCont pc ls).2 ≤ ls.length := by
  induction ls generalizing pc with
  | nil => simp [consumeCont]
  | cons l rest ih =>
    rw [consumeCont]
    by_cases h : pc > 0
    · simp only [h, if_true, List.length_cons]
      exact Nat.succ_le_succ (ih _)
    · simp [h]

/-- Each line step keeps the invariant (at the incremented bound) and
consumes at most the remaining lines. -/
theorem pyStep_ok (incl : Bool) (line : List Char) (rest : List (List Char)) {n : Nat}
    {st : PyState} (hst : stOK n st) :
    stOK (n + 1) (pyStep incl line rest (n + 1) st).1
    ∧ (pyStep incl line rest (n + 1) st).2 ≤ rest.length := by
  simp only [pyStep]
  repeat' split
  all_goals first
    | exact ⟨stOK_pushClass hst _ _, Nat.zero_le _⟩
    | exact ⟨stOK_mono (Nat.le_succ n) (stOK_pushProp hst _), consumeCont_le _ _⟩
    | exact ⟨stOK_mono (Nat.le_succ n) (stOK_pushProp hst _), Nat.zero_le _⟩
    | exact ⟨stOK_pushMethod hst _ _ _, Nat.zero_le _⟩
    | exact ⟨stOK_pushFunc hst _ _ _, Nat.zero_le _⟩
    | exact ⟨stOK_pushImport hst _ _, Nat.zero_le _⟩
    | exact ⟨stOK_mono (Nat.le_succ n) hst, Nat.zero_le _⟩

/-- The loop invariant: starting from a state valid for `n` processed
lines, the loop over `ls` yields a state valid for `n + ls.length`. -/
theorem pyLoop_ok (incl : Bool) :
    ∀ (fuel : Nat) (ls : List (List Char)) (n : Nat) (st : PyState), stOK n st →
      stOK (n + ls.length) (pyLoop incl fuel ls (n + 1) st) := by
  intro fuel
  induction fuel with
  | zero =>
    intro ls n st hst
    exact stOK_mono (Nat.le_add_right n ls.length) hst
  | succ fuel ih =>
    intro ls n st hst
    cases ls with
    | nil => simpa using hst
    | cons line rest =>
      simp only [pyLoop]
      have hstep := pyStep_ok incl line rest hst
      have hK := hstep.2
      have harg : n + 1 + 1 + (pyStep incl line rest (n + 1) st).2
          = (n + 1 + (pyStep incl line rest (n + 1) st).2) + 1 := by omega
      rw [harg]
      have hrec := ih (rest.drop (pyStep incl line rest (n + 1) st).2)
        (n + 1 + (pyStep incl line rest (n + 1) st).2)
        (pyStep incl line rest (n + 1) st).1
        (stOK_mono (by omega) hstep.1)
      have hlen : n + 1 + (pyStep incl line rest (n + 1) st).2
          + (rest.drop (pyStep incl line rest (n + 1) st).2).length
          = n + (line :: rest).length := by
        rw [List.length_drop, List.length_cons]
        omega
      rw [hlen] at hrec
      exact hrec

/-- Turn the descending invariant on a most-recent-first list into the
increasing statement on its reversal. -/
theorem linesOK_reverse {b : Nat} {xs : List Nat} (h : linesOK b xs) :
    (∀ x ∈ xs.reverse, 1 ≤ x ∧ x ≤ b) ∧ xs.reverse.Pairwise (· < ·) := by
  refine ⟨fun x hx => h.1 x (List.mem_reverse.mp hx), ?_⟩
  rw [List.pairwise_reverse]
  exact h.2

/-- Claim C10: every record produced by the heuristic Python extractor —
top-level functions, classes, class methods, and imports — carries a line
number between 1 and the number of input lines, and within each of these
lists the line numbers are strictly increasing (source order). -/
theorem python_records_ordered_c10 (incl : Bool) (fp content root : String) :
    (∀ f ∈ (parsePythonFile incl fp content root).functions,
        1 ≤ f.line ∧ f.line ≤ (splitChar '\n' (chars content)).length)
    ∧ ((parsePythonFile incl fp content root).functions.map FunctionInfo.line).Pairwise (· < ·)
    ∧ (∀ c ∈ (parsePythonFile incl fp content root).classes,
        1 ≤ c.line ∧ c.line ≤ (splitChar '\n' (chars content)).length)
    ∧ ((parsePythonFile incl fp content root).classes.map ClassInfo.line).Pairwise (· < ·)
    ∧ (∀ i ∈ (parsePythonFile incl fp content root).imports,
        1 ≤ i.line ∧ i.line ≤ (splitChar '\n' (chars content)).length)
    ∧ ((parsePythonFile incl fp content root).imports.map ImportInfo.line).Pairwise (· < ·)
    ∧ (∀ c ∈ (parsePythonFile incl fp content root).classes,
        (∀ m ∈ c.methods, 1 ≤ m.line ∧ m.line ≤ (splitChar '\n' (chars content)).length)
        ∧ (c.methods.map FunctionInfo.line).Pairwise (· < ·)) := by
  have hinit : stOK 0 ({} : PyState) :=
    ⟨linesOK_nil 0, linesOK_nil 0, linesOK_nil 0, by intro c hc; cases hc⟩
  have hfin := pyLoop_ok incl (splitChar '\n' (chars content)).length
    (splitChar '\n' (chars content)) 0 {} hinit
  rw [Nat.zero_add] at hfin
  set L := (splitChar '\n' (chars content)).length with hL
  set stf := pyLoop incl L (splitChar '\n' (chars content)) (0 + 1) {} with hstf
  have hfi : parsePythonFile incl fp content root =
      { path := fp, relativePath := pathRelative root fp,
        functions := stf.functionsRev.reverse,
        classes := (stf.classesRev.map
          (fun c => { c with methods := c.methods.reverse,
                             properties := c.properties.reverse })).reverse,
        interfaces := [], imports := stf.importsRev.reverse, language := .python } := rfl
  rw [hfi]
  have hfun := linesOK_reverse hfin.1
  have hcls := linesOK_reverse hfin.2.1
  have himp := linesOK_reverse hfin.2.2.1
  refine ⟨?_, ?_, ?_, ?_, ?_, ?_, ?_⟩
  · intro f hf
    exact hfun.1 f.line (List.mem_reverse.mpr (List.mem_map_of_mem _ (List.mem_reverse.mp hf)))
  · rw [List.map_reverse]
    exact hfun.2
  · intro c hc
    rw [List.mem_reverse, List.mem_map] at hc
    obtain ⟨c0, hc0, rfl⟩ := hc
    exact hcls.1 c0.line (List.mem_reverse.mpr (List.mem_map_of_mem _ hc0))
  · rw [List.map_reverse, List.map_map]
    have heq : (ClassInfo.line ∘ (fun c : ClassInfo =>
        { c with methods := c.methods.reverse, properties := c.properties.reverse })) =
        ClassInfo.line := rfl
    rw [heq, List.pairwise_reverse]
    exact hfin.2.1.2
  · intro i hi
    exact himp.1 i.line (List.mem_reverse.mpr (List.mem_map_of_mem _ (List.mem_reverse.mp hi)))
  · rw [List.map_reverse]
    exact himp.2
  · intro c hc
    rw [List.mem_reverse, List.mem_map] at hc
    obtain ⟨c0, hc0, rfl⟩ := hc
    have hm := linesOK_reverse (hfin.2.2.2 c0 hc0)
    refine ⟨fun m hm' => ?_, ?_⟩
    · exact hm.1 m.line
        (List.mem_reverse.mpr (List.mem_map_of_mem _ (List.mem_reverse.mp hm')))
    · show ((c0.methods.reverse).map FunctionInfo.line).Pairwise (· < ·)
      rw [List.map_reverse]
      exact hm.2

end Omen
